import Mathlib

/-!
Verification of the microwhirl worker-pool library.

The development shallowly embeds the two-file Python source: `MPQueue`
models the external multiprocessing queue primitive (a bounded FIFO with a
per-handle closed flag), `MicroWhirlQueues` models the queue registry,
`WhirlProcess` and its subclasses model the worker units, and `MicroWhirl`
models the controller.  Sequential semantics: a blocking put/get with a
timeout is observationally a single non-blocking attempt, because no other
actor can change the queue while the caller waits.
-/

set_option autoImplicit false

namespace Microwhirl

/-- Payload values carried on queues: exactly one reserved soft-close
sentinel, distinguishable from every application payload. -/
inductive Obj where
  | softclose
  | data (n : Nat)
  deriving DecidableEq, Repr

/-- Constant to signal a process for soft closing (`SOFTCLOSE = "softclose"`). -/
def SOFTCLOSE : Obj := Obj.softclose

/-- The external queue primitive `mp.Queue(maxsize)`: a FIFO with capacity
`maxsize` (0 = unbounded), a buffer of pending items (front at the head),
and a per-handle closed flag set by `close()`. -/
structure MPQueue where
  maxsize : Nat
  items : List Obj
  closed : Bool
  deriving DecidableEq, Repr

/-- `mp.Queue(maxsize)`: fresh open queue, no pending items. -/
def MPQueue.new (maxsize : Nat) : MPQueue :=
  { maxsize := maxsize, items := [], closed := false }

/-- A bounded queue is full when its buffer has reached its capacity;
capacity 0 means unbounded, never full. -/
def MPQueue.isFull (q : MPQueue) : Bool :=
  if q.maxsize = 0 then false
  else if q.maxsize ≤ q.items.length then true else false

/-- Current depth of the buffer (`mp.Queue.qsize()`). -/
def MPQueue.qsize (q : MPQueue) : Nat := q.items.length

/-- Outcome of the primitive `mp.Queue.put`: success with the new queue
state, the `queue.Full` exception, or `ValueError` on a closed handle. -/
inductive PutRes where
  | ok (q : MPQueue)
  | full
  | closedErr
  deriving DecidableEq, Repr

/-- Outcome of the primitive `mp.Queue.get`: success with the value and
the new queue state, the `queue.Empty` exception, or `ValueError` on a
closed handle. -/
inductive GetRes where
  | ok (o : Obj) (q : MPQueue)
  | empty
  | closedErr
  deriving DecidableEq, Repr

/-- `mp.Queue.put(obj, block, timeout)` under sequential semantics: with no
concurrent consumer a full queue stays full for the whole wait, so the call
succeeds iff the queue is not full at entry; a closed handle raises
`ValueError`. -/
def MPQueue.put (q : MPQueue) (o : Obj) : PutRes :=
  if q.closed then PutRes.closedErr
  else if q.isFull then PutRes.full
  else PutRes.ok { q with items := q.items ++ [o] }

/-- `mp.Queue.get(block, timeout)` under sequential semantics: succeeds iff
some item is pending at entry, returning the front item; a closed handle
raises `ValueError`. -/
def MPQueue.get (q : MPQueue) : GetRes :=
  if q.closed then GetRes.closedErr
  else
    match q.items with
    | [] => GetRes.empty
    | o :: rest => GetRes.ok o { q with items := rest }

/-- `mp.Queue.close()`.  Modelled from the spec: the source treats this as
an external primitive; per the spec, closing a queue releases its
resources and drains its pending items. -/
def MPQueue.close (q : MPQueue) : MPQueue :=
  { q with closed := true, items := [] }

/-- First-match lookup in an association list of named queues; the Python
dict has unique keys, so first-match agrees with dict lookup. -/
def qlookup (l : List (String × MPQueue)) (n : String) : Option MPQueue :=
  match l with
  | [] => none
  | (k, q) :: rest => if k = n then some q else qlookup rest n

/-- Replace the entry for key `n` (first match) by `q`. -/
def qupdate (l : List (String × MPQueue)) (n : String) (q : MPQueue) :
    List (String × MPQueue) :=
  match l with
  | [] => []
  | (k, q0) :: rest => if k = n then (k, q) :: rest else (k, q0) :: qupdate rest n q

/-- Number of entries stored under key `n`. -/
def countKey (l : List (String × MPQueue)) (n : String) : Nat :=
  (l.filter (fun kv => kv.1 = n)).length

/-- The exceptions the Python code can surface: the two module-defined
`MicroWhirlException` subclasses, plus the runtime errors `ValueError`
(operation on a closed queue) and `AttributeError` (method call on a
`None` queue field). -/
inductive PyExc where
  | QueueNotExists (msg : String)
  | QueueTimeout (msg : String)
  | ValueErrorClosed
  | AttributeErrorNone
  deriving DecidableEq, Repr

/-- `MicroWhirlQueues`: the pickable registry of named queues plus the one
timeout applied to every put/get issued through it. -/
structure MicroWhirlQueues where
  qList : List (String × MPQueue)
  qTimeout : Nat
  deriving DecidableEq, Repr

/-- `MicroWhirlQueues.__init__(qtimeout)`. -/
def MicroWhirlQueues.new (qtimeout : Nat) : MicroWhirlQueues :=
  { qList := [], qTimeout := qtimeout }

/-- `addQueue(qname, qsize)`: add a queue by name, skip if it exists.
Python dicts append new keys at the end, preserving insertion order. -/
def MicroWhirlQueues.addQueue (w : MicroWhirlQueues) (qname : String) (qsize : Nat) :
    MicroWhirlQueues :=
  if (qlookup w.qList qname).isSome then w
  else { w with qList := w.qList ++ [(qname, MPQueue.new qsize)] }

/-- `closeQueue(qname)`: close the named queue, skip if it does not exist;
the name stays in the registry mapping. -/
def MicroWhirlQueues.closeQueue (w : MicroWhirlQueues) (qname : String) :
    MicroWhirlQueues :=
  match qlookup w.qList qname with
  | none => w
  | some q => { w with qList := qupdate w.qList qname q.close }

/-- `closeAllQueues()`: close every registered queue, keeping all names. -/
def MicroWhirlQueues.closeAllQueues (w : MicroWhirlQueues) : MicroWhirlQueues :=
  { w with qList := w.qList.map (fun kv => (kv.1, kv.2.close)) }

/-- `queueSize(qname)`: 0 for an unknown name, else the queue's depth. -/
def MicroWhirlQueues.queueSize (w : MicroWhirlQueues) (qname : String) : Nat :=
  match qlookup w.qList qname with
  | none => 0
  | some q => q.qsize

/-- `put(qname, obj)`: raises `QueueNotExists` for an unregistered name;
otherwise attempts the primitive put, turning `queue.Full` into
`QueueTimeout` (a `ValueError` from a closed queue propagates uncaught). -/
def MicroWhirlQueues.put (w : MicroWhirlQueues) (qname : String) (obj : Obj) :
    Except PyExc MicroWhirlQueues :=
  match qlookup w.qList qname with
  | none => Except.error (PyExc.QueueNotExists ("Queue " ++ qname ++ " not exists"))
  | some q =>
    match q.put obj with
    | PutRes.ok q2 => Except.ok { w with qList := qupdate w.qList qname q2 }
    | PutRes.full => Except.error (PyExc.QueueTimeout ("put: queue " ++ qname ++ " timeout"))
    | PutRes.closedErr => Except.error PyExc.ValueErrorClosed

/-- `get(qname)`: raises `QueueNotExists` for an unregistered name;
otherwise attempts the primitive get, turning `queue.Empty` into
`QueueTimeout` (a `ValueError` from a closed queue propagates uncaught). -/
def MicroWhirlQueues.get (w : MicroWhirlQueues) (qname : String) :
    Except PyExc (Obj × MicroWhirlQueues) :=
  match qlookup w.qList qname with
  | none => Except.error (PyExc.QueueNotExists ("Queue " ++ qname ++ " not exists"))
  | some q =>
    match q.get with
    | GetRes.ok o q2 => Except.ok (o, { w with qList := qupdate w.qList qname q2 })
    | GetRes.empty => Except.error (PyExc.QueueTimeout ("get: queue " ++ qname ++ " timeout"))
    | GetRes.closedErr => Except.error PyExc.ValueErrorClosed

/-- `WhirlProcess`: base worker class.  `whirl` must be set in `addWorker`;
the two private queues exist according to the construction flags; `alive`
models the external `mp.Process.is_alive()` observation. -/
structure WhirlProcess where
  whirl : Option MicroWhirlQueues
  qInput : Option MPQueue
  qOutput : Option MPQueue
  alive : Bool
  deriving DecidableEq, Repr

/-- `WhirlProcess.__init__(needInput, needOutput)`. -/
def WhirlProcess.new (needInput needOutput : Bool) : WhirlProcess :=
  { whirl := none
    qInput := if needInput then some (MPQueue.new 0) else none
    qOutput := if needOutput then some (MPQueue.new 0) else none
    alive := false }

/-- `WhirlProcess.cleanup()`: close and drain both private queues. -/
def WhirlProcess.cleanup (p : WhirlProcess) : WhirlProcess :=
  { p with qInput := Option.map MPQueue.close p.qInput
           qOutput := Option.map MPQueue.close p.qOutput }

/-- `SimpleWorkerProcess`: simple context-free worker.  Adds the
user-supplied function (modelled by its effect on the shared registry) and
the private soft-close flag. -/
structure SimpleWorkerProcess extends WhirlProcess where
  worker : MicroWhirlQueues → MicroWhirlQueues
  softclose : Bool

/-- `SimpleWorkerProcess.__init__(worker_func)`: builds the base with
`needInput = True, needOutput = False` and a cleared soft-close flag. -/
def SimpleWorkerProcess.new (f : MicroWhirlQueues → MicroWhirlQueues) :
    SimpleWorkerProcess :=
  { toWhirlProcess := WhirlProcess.new true false, worker := f, softclose := false }

/-- `SimpleWorkerProcess.processSignals()`: one non-blocking poll of the
private signal queue (`qInput.get(False, 0.001)`); `queue.Empty` returns
silently; the soft-close flag is set iff the polled value is `SOFTCLOSE`.
The constructor always creates `qInput`; on a `None` field Python would
raise `AttributeError`. -/
def SimpleWorkerProcess.processSignals (s : SimpleWorkerProcess) :
    Except PyExc SimpleWorkerProcess :=
  match s.qInput with
  | none => Except.error PyExc.AttributeErrorNone
  | some q =>
    match q.get with
    | GetRes.empty => Except.ok s
    | GetRes.closedErr => Except.error PyExc.ValueErrorClosed
    | GetRes.ok o q2 =>
      if o = SOFTCLOSE then
        Except.ok { s with qInput := some q2, softclose := true }
      else
        Except.ok { s with qInput := some q2 }

/-- One iteration of `SimpleWorkerProcess.run()`: the loop runs while the
soft-close flag is unset; an iteration polls signals and then calls the
user function once with the shared registry handle (`self.worker(self.whirl)`;
the source requires the process to be added, binding `whirl`, before it is
started).  `none` reports that the loop guard failed and the run exits. -/
def SimpleWorkerProcess.step (s : SimpleWorkerProcess) :
    Except PyExc (Option SimpleWorkerProcess) :=
  if s.softclose then Except.ok none
  else
    match s.processSignals with
    | Except.error e => Except.error e
    | Except.ok s1 => Except.ok (some { s1 with whirl := Option.map s1.worker s1.whirl })

/-- Fuelled unfolding of `SimpleWorkerProcess.run()`: perform up to `n`
loop iterations, stopping early when the guard fails. -/
def SimpleWorkerProcess.run : Nat → SimpleWorkerProcess → Except PyExc SimpleWorkerProcess
  | 0, s => Except.ok s
  | Nat.succ n, s =>
    match s.step with
    | Except.error e => Except.error e
    | Except.ok none => Except.ok s
    | Except.ok (some s1) => SimpleWorkerProcess.run n s1

/-- `SimpleWorkerProcess.cleanup()` (inherited): closes and drains the
private queues, leaving the soft-close flag untouched. -/
def SimpleWorkerProcess.cleanup (s : SimpleWorkerProcess) : SimpleWorkerProcess :=
  { s with toWhirlProcess := s.toWhirlProcess.cleanup }

/-- `SoftcloseProcess`: abstract worker with soft close ability; its `run`
is left abstract (`pass`). -/
structure SoftcloseProcess extends WhirlProcess where
  softclose : Bool
  deriving DecidableEq, Repr

/-- `SoftcloseProcess.__init__(needInput, needOutput)`. -/
def SoftcloseProcess.new (needInput needOutput : Bool) : SoftcloseProcess :=
  { toWhirlProcess := WhirlProcess.new needInput needOutput, softclose := false }

/-- `SoftcloseProcess.processSignals()`: the source duplicates the body of
`SimpleWorkerProcess.processSignals` verbatim. -/
def SoftcloseProcess.processSignals (p : SoftcloseProcess) :
    Except PyExc SoftcloseProcess :=
  match p.qInput with
  | none => Except.error PyExc.AttributeErrorNone
  | some q =>
    match q.get with
    | GetRes.empty => Except.ok p
    | GetRes.closedErr => Except.error PyExc.ValueErrorClosed
    | GetRes.ok o q2 =>
      if o = SOFTCLOSE then
        Except.ok { p with qInput := some q2, softclose := true }
      else
        Except.ok { p with qInput := some q2 }

/-- `MicroWhirl`: the controller.  `wList` holds the ordered worker
records `(process, tag, id)`; `queues` is the shared registry; `maxProcId`
is the last assigned id. -/
structure MicroWhirl where
  wList : List (WhirlProcess × String × Nat)
  queues : MicroWhirlQueues
  maxProcId : Nat
  deriving DecidableEq, Repr

/-- `MicroWhirl.__init__(qtimeout)`. -/
def MicroWhirl.new (qtimeout : Nat) : MicroWhirl :=
  { wList := [], queues := MicroWhirlQueues.new qtimeout, maxProcId := 0 }

/-- `addWorker(worker_obj, tag)`: binds the shared registry handle into
the worker (`worker_obj.whirl = self.queues`), increments `maxProcId`,
appends the record and returns the new id. -/
def MicroWhirl.addWorker (m : MicroWhirl) (worker_obj : WhirlProcess) (tag : String) :
    MicroWhirl × Nat :=
  let bound := { worker_obj with whirl := some m.queues }
  let newId := m.maxProcId + 1
  ({ m with wList := m.wList ++ [(bound, tag, newId)], maxProcId := newId }, newId)

/-- Iterated `addWorker`, returning the ids in call order. -/
def MicroWhirl.addWorkers : MicroWhirl → List (WhirlProcess × String) → MicroWhirl × List Nat
  | m, [] => (m, [])
  | m, (w, t) :: rest =>
    let p := m.addWorker w t
    let p2 := MicroWhirl.addWorkers p.1 rest
    (p2.1, p.2 :: p2.2)

/-- `startWorkersByPredicate(predicate)`: start every matching worker; a
started process is observed alive by the external runtime. -/
def MicroWhirl.startWorkersByPredicate (m : MicroWhirl)
    (pred : WhirlProcess → String → Nat → Bool) : MicroWhirl :=
  { m with
    wList := m.wList.map (fun rec =>
      if pred rec.1 rec.2.1 rec.2.2 then
        ({ rec.1 with alive := true }, rec.2.1, rec.2.2)
      else rec) }

/-- The body of the `closeWorkersByPredicate` loop for one record: for a
matching worker with a signal queue, one attempt of
`p.qInput.put(SOFTCLOSE, False, 0)`, with `queue.Full` caught and
ignored (a `ValueError` from a closed queue would propagate). -/
def signalOne (pred : WhirlProcess → String → Nat → Bool)
    (rec : WhirlProcess × String × Nat) : Except PyExc (WhirlProcess × String × Nat) :=
  if pred rec.1 rec.2.1 rec.2.2 then
    match rec.1.qInput with
    | none => Except.ok rec
    | some q =>
      match q.put SOFTCLOSE with
      | PutRes.ok q2 => Except.ok ({ rec.1 with qInput := some q2 }, rec.2.1, rec.2.2)
      | PutRes.full => Except.ok rec
      | PutRes.closedErr => Except.error PyExc.ValueErrorClosed
  else Except.ok rec

/-- The `closeWorkersByPredicate` loop over the worker records, stopping
at the first uncaught exception. -/
def signalAll (pred : WhirlProcess → String → Nat → Bool) :
    List (WhirlProcess × String × Nat) → Except PyExc (List (WhirlProcess × String × Nat))
  | [] => Except.ok []
  | rec :: rest =>
    match signalOne pred rec with
    | Except.error e => Except.error e
    | Except.ok rec2 =>
      match signalAll pred rest with
      | Except.error e => Except.error e
      | Except.ok rest2 => Except.ok (rec2 :: rest2)

/-- `closeWorkersByPredicate(predicate)`: soft close workers by
predicate over `(process, tag, processId)`. -/
def MicroWhirl.closeWorkersByPredicate (m : MicroWhirl)
    (pred : WhirlProcess → String → Nat → Bool) : Except PyExc MicroWhirl :=
  match signalAll pred m.wList with
  | Except.error e => Except.error e
  | Except.ok l => Except.ok { m with wList := l }

/-- The successful-case result of `signalOne` on one worker record (the
branches of `signalOne` that do not raise). -/
def signalOneOk (pred : WhirlProcess → String → Nat → Bool)
    (rec : WhirlProcess × String × Nat) : WhirlProcess × String × Nat :=
  if pred rec.1 rec.2.1 rec.2.2 then
    match rec.1.qInput with
    | none => rec
    | some q =>
      match q.put SOFTCLOSE with
      | PutRes.ok q2 => ({ rec.1 with qInput := some q2 }, rec.2.1, rec.2.2)
      | PutRes.full => rec
      | PutRes.closedErr => rec
  else rec

/-- `checkAliveByPredicate(predicate)`: `alive = alive or p.is_alive()`
over the matching records, starting from `False`. -/
def MicroWhirl.checkAliveByPredicate (m : MicroWhirl)
    (pred : WhirlProcess → String → Nat → Bool) : Bool :=
  m.wList.foldl
    (fun alive rec => if pred rec.1 rec.2.1 rec.2.2 then alive || rec.1.alive else alive)
    false

/-! ### Association-list helper lemmas -/

theorem qlookup_qupdate_self (l : List (String × MPQueue)) (n : String) (q : MPQueue)
    (h : (qlookup l n).isSome = true) : qlookup (qupdate l n q) n = some q := by
  induction l with
  | nil => simp [qlookup] at h
  | cons kv rest ih =>
    obtain ⟨k, q0⟩ := kv
    by_cases hk : k = n
    · subst hk; simp [qlookup, qupdate]
    · simp [qlookup, qupdate, hk] at h ⊢
      exact ih h

theorem qlookup_append_of_none (l : List (String × MPQueue)) (n : String) (q : MPQueue)
    (h : qlookup l n = none) : qlookup (l ++ [(n, q)]) n = some q := by
  induction l with
  | nil => simp [qlookup]
  | cons kv rest ih =>
    obtain ⟨k, q0⟩ := kv
    by_cases hk : k = n
    · subst hk; simp [qlookup] at h
    · simp [qlookup, hk] at h ⊢
      exact ih h

theorem countKey_eq_zero_of_none (l : List (String × MPQueue)) (n : String)
    (h : qlookup l n = none) : countKey l n = 0 := by
  induction l with
  | nil => simp [countKey]
  | cons kv rest ih =>
    obtain ⟨k, q0⟩ := kv
    by_cases hk : k = n
    · subst hk; simp [qlookup] at h
    · simp [qlookup, hk] at h
      simpa [countKey, List.filter, hk] using ih h

theorem countKey_append_single (l : List (String × MPQueue)) (n : String) (q : MPQueue) :
    countKey (l ++ [(n, q)]) n = countKey l n + 1 := by
  simp [countKey, List.filter_append]

theorem qlookup_map_close (l : List (String × MPQueue)) (n : String) :
    qlookup (l.map (fun kv => (kv.1, kv.2.close))) n
      = Option.map MPQueue.close (qlookup l n) := by
  induction l with
  | nil => simp [qlookup]
  | cons kv rest ih =>
    obtain ⟨k, q0⟩ := kv
    by_cases hk : k = n
    · subst hk; simp [qlookup]
    · simp [qlookup, hk, ih]

/-! ### Claim theorems: queue registry -/

/-- C1: `put(name, value)` fails with `QueueNotExists` when `name` is not
registered; when the queue is full at entry (and hence, with no concurrent
consumer, still full after the registry's timeout) it fails with
`QueueTimeout`; otherwise it enqueues the value at the back; in
particular, on a queue of capacity 1, one put succeeds and a second put
before any get fails with `QueueTimeout`. -/
theorem put_contract (w : MicroWhirlQueues) (qname : String) (o : Obj) :
    (qlookup w.qList qname = none →
      w.put qname o
        = Except.error (PyExc.QueueNotExists ("Queue " ++ qname ++ " not exists"))) ∧
    (∀ q, qlookup w.qList qname = some q → q.closed = false → q.isFull = true →
      w.put qname o
        = Except.error (PyExc.QueueTimeout ("put: queue " ++ qname ++ " timeout"))) ∧
    (∀ q, qlookup w.qList qname = some q → q.closed = false → q.isFull = false →
      w.put qname o
        = Except.ok { w with qList := qupdate w.qList qname { q with items := q.items ++ [o] } }) ∧
    (∃ w1, ((MicroWhirlQueues.new 1).addQueue "capq" 1).put "capq" o = Except.ok w1 ∧
      w1.put "capq" o
        = Except.error (PyExc.QueueTimeout ("put: queue capq timeout"))) := by
  refine ⟨?_, ?_, ?_, ?_⟩
  · intro h
    simp [MicroWhirlQueues.put, h]
  · intro q hq hcl hfull
    simp [MicroWhirlQueues.put, hq, MPQueue.put, hcl, hfull]
  · intro q hq hcl hfull
    simp [MicroWhirlQueues.put, hq, MPQueue.put, hcl, hfull]
  · exact ⟨{ qList := [("capq", { maxsize := 1, items := [o], closed := false })],
             qTimeout := 1 }, rfl, rfl⟩

/-- C1 witness: concrete registries exercising each branch of the put
contract, including the capacity-1 scenario. -/
theorem put_contract_check :
    (MicroWhirlQueues.new 1).put "nope" (Obj.data 0)
        = Except.error (PyExc.QueueNotExists "Queue nope not exists") ∧
    MicroWhirlQueues.put
        { qList := [("fq", { maxsize := 1, items := [Obj.data 0], closed := false })],
          qTimeout := 1 } "fq" (Obj.data 1)
        = Except.error (PyExc.QueueTimeout "put: queue fq timeout") ∧
    MicroWhirlQueues.put
        { qList := [("okq", { maxsize := 0, items := [], closed := false })],
          qTimeout := 1 } "okq" (Obj.data 2)
        = Except.ok
            { qList := [("okq", { maxsize := 0, items := [Obj.data 2], closed := false })],
              qTimeout := 1 } ∧
    (∃ w1, ((MicroWhirlQueues.new 1).addQueue "capq" 1).put "capq" (Obj.data 7)
        = Except.ok w1 ∧
      w1.put "capq" (Obj.data 7)
        = Except.error (PyExc.QueueTimeout "put: queue capq timeout")) := by
  refine ⟨?_, ?_, ?_, (put_contract (MicroWhirlQueues.new 1) "x" (Obj.data 7)).2.2.2⟩
  · exact (put_contract (MicroWhirlQueues.new 1) "nope" (Obj.data 0)).1 rfl
  · exact (put_contract
      { qList := [("fq", { maxsize := 1, items := [Obj.data 0], closed := false })],
        qTimeout := 1 } "fq" (Obj.data 1)).2.1
      { maxsize := 1, items := [Obj.data 0], closed := false } (by decide) rfl (by decide)
  · exact (put_contract
      { qList := [("okq", { maxsize := 0, items := [], closed := false })],
        qTimeout := 1 } "okq" (Obj.data 2)).2.2.1
      { maxsize := 0, items := [], closed := false } (by decide) rfl (by decide)

/-- C2: `get(name)` fails with `QueueNotExists` when `name` is not
registered; when the queue is empty at entry (and hence, with no
concurrent producer, still empty after the registry's timeout) it fails
with `QueueTimeout`; otherwise it dequeues the front item; in particular,
`get` on a freshly created, empty queue fails with `QueueTimeout`. -/
theorem get_contract (w : MicroWhirlQueues) (qname : String) :
    (qlookup w.qList qname = none →
      w.get qname
        = Except.error (PyExc.QueueNotExists ("Queue " ++ qname ++ " not exists"))) ∧
    (∀ q, qlookup w.qList qname = some q → q.closed = false → q.items = [] →
      w.get qname
        = Except.error (PyExc.QueueTimeout ("get: queue " ++ qname ++ " timeout"))) ∧
    (∀ q o rest, qlookup w.qList qname = some q → q.closed = false → q.items = o :: rest →
      w.get qname
        = Except.ok (o, { w with qList := qupdate w.qList qname { q with items := rest } })) ∧
    ((MicroWhirlQueues.new 1).addQueue "freshq" 0).get "freshq"
        = Except.error (PyExc.QueueTimeout "get: queue freshq timeout") := by
  refine ⟨?_, ?_, ?_, rfl⟩
  · intro h
    simp [MicroWhirlQueues.get, h]
  · intro q hq hcl hempty
    simp [MicroWhirlQueues.get, hq, MPQueue.get, hcl, hempty]
  · intro q o rest hq hcl hitems
    simp [MicroWhirlQueues.get, hq, MPQueue.get, hcl, hitems]

/-- C2 witness: concrete registries exercising each branch of the get
contract, including the fresh-empty-queue scenario. -/
theorem get_contract_check :
    (MicroWhirlQueues.new 1).get "nope"
        = Except.error (PyExc.QueueNotExists "Queue nope not exists") ∧
    MicroWhirlQueues.get
        { qList := [("eq", { maxsize := 0, items := [], closed := false })],
          qTimeout := 1 } "eq"
        = Except.error (PyExc.QueueTimeout "get: queue eq timeout") ∧
    MicroWhirlQueues.get
        { qList := [("gq", { maxsize := 0, items := [Obj.data 4, Obj.data 5], closed := false })],
          qTimeout := 1 } "gq"
        = Except.ok (Obj.data 4,
            { qList := [("gq", { maxsize := 0, items := [Obj.data 5], closed := false })],
              qTimeout := 1 }) ∧
    ((MicroWhirlQueues.new 1).addQueue "freshq" 0).get "freshq"
        = Except.error (PyExc.QueueTimeout "get: queue freshq timeout") := by
  refine ⟨?_, ?_, ?_, (get_contract (MicroWhirlQueues.new 1) "x").2.2.2⟩
  · exact (get_contract (MicroWhirlQueues.new 1) "nope").1 rfl
  · exact (get_contract
      { qList := [("eq", { maxsize := 0, items := [], closed := false })],
        qTimeout := 1 } "eq").2.1
      { maxsize := 0, items := [], closed := false } (by decide) rfl rfl
  · exact (get_contract
      { qList := [("gq", { maxsize := 0, items := [Obj.data 4, Obj.data 5], closed := false })],
        qTimeout := 1 } "gq").2.2.1
      { maxsize := 0, items := [Obj.data 4, Obj.data 5], closed := false }
      (Obj.data 4) [Obj.data 5] (by decide) rfl rfl

/-- C3: `closeQueue(name)` on a registered name closes that queue,
releasing it and draining its pending items, while keeping the name in
the registry mapping; on a name that is not registered it is a no-op:
the registry is returned unchanged and no error is raised (the operation
is total). -/
theorem closeQueue_contract (w : MicroWhirlQueues) (qname : String) :
    (qlookup w.qList qname = none → w.closeQueue qname = w) ∧
    (∀ q, qlookup w.qList qname = some q →
      w.closeQueue qname
        = { w with qList := qupdate w.qList qname { q with items := [], closed := true } } ∧
      qlookup (w.closeQueue qname).qList qname
        = some { q with items := [], closed := true }) := by
  constructor
  · intro h
    simp [MicroWhirlQueues.closeQueue, h]
  · intro q hq
    have h1 : w.closeQueue qname = { w with qList := qupdate w.qList qname q.close } := by
      simp [MicroWhirlQueues.closeQueue, hq]
    refine ⟨h1, ?_⟩
    rw [h1]
    exact qlookup_qupdate_self w.qList qname q.close (by simp [hq])

/-- C3 witness: closing a queue holding a pending item drains and closes
it in place; closing a missing name returns the registry unchanged. -/
theorem closeQueue_contract_check :
    (MicroWhirlQueues.new 1).closeQueue "missing" = MicroWhirlQueues.new 1 ∧
    MicroWhirlQueues.closeQueue
        { qList := [("q", { maxsize := 2, items := [Obj.data 5], closed := false })],
          qTimeout := 1 } "q"
        = { qList := [("q", { maxsize := 2, items := [], closed := true })], qTimeout := 1 } ∧
    qlookup (MicroWhirlQueues.closeQueue
        { qList := [("q", { maxsize := 2, items := [Obj.data 5], closed := false })],
          qTimeout := 1 } "q").qList "q"
        = some { maxsize := 2, items := [], closed := true } := by
  refine ⟨(closeQueue_contract (MicroWhirlQueues.new 1) "missing").1 rfl, ?_, ?_⟩
  · exact ((closeQueue_contract
      { qList := [("q", { maxsize := 2, items := [Obj.data 5], closed := false })],
        qTimeout := 1 } "q").2
      { maxsize := 2, items := [Obj.data 5], closed := false } (by decide)).1
  · exact ((closeQueue_contract
      { qList := [("q", { maxsize := 2, items := [Obj.data 5], closed := false })],
        qTimeout := 1 } "q").2
      { maxsize := 2, items := [Obj.data 5], closed := false } (by decide)).2

/-- C9: `addQueue` is idempotent: a second `addQueue` under the same name
is a no-op that preserves the existing queue and its capacity, leaves
exactly one queue under that name, and raises no error (the operation is
total, so no exception path exists). -/
theorem addQueue_idempotent (w : MicroWhirlQueues) (qname : String) (c1 c2 : Nat) :
    (w.addQueue qname c1).addQueue qname c2 = w.addQueue qname c1 ∧
    ((qlookup w.qList qname).isSome = true → w.addQueue qname c2 = w) ∧
    (qlookup w.qList qname = none →
      qlookup (w.addQueue qname c1).qList qname = some (MPQueue.new c1) ∧
      countKey (w.addQueue qname c1).qList qname = 1 ∧
      countKey ((w.addQueue qname c1).addQueue qname c2).qList qname = 1) := by
  have hnoop2 : ∀ (v : MicroWhirlQueues) c, (qlookup v.qList qname).isSome = true →
      v.addQueue qname c = v := by
    intro v c h
    simp [MicroWhirlQueues.addQueue, h]
  have hnoop : ∀ c, (qlookup w.qList qname).isSome = true → w.addQueue qname c = w :=
    fun c h => hnoop2 w c h
  have hsome : ∀ c, (qlookup (w.addQueue qname c).qList qname).isSome = true := by
    intro c
    by_cases h : (qlookup w.qList qname).isSome = true
    · rw [hnoop c h]; exact h
    · have hn : qlookup w.qList qname = none := by
        cases hx : qlookup w.qList qname with
        | none => rfl
        | some q => rw [hx] at h; simp at h
      have : (w.addQueue qname c).qList = w.qList ++ [(qname, MPQueue.new c)] := by
        simp [MicroWhirlQueues.addQueue, hn]
      rw [this, qlookup_append_of_none w.qList qname (MPQueue.new c) hn]
      rfl
  have hidem : (w.addQueue qname c1).addQueue qname c2 = w.addQueue qname c1 :=
    hnoop2 (w.addQueue qname c1) c2 (hsome c1)
  refine ⟨hidem, hnoop c2, ?_⟩
  intro hn
  have hlist : (w.addQueue qname c1).qList = w.qList ++ [(qname, MPQueue.new c1)] := by
    simp [MicroWhirlQueues.addQueue, hn]
  have hcnt : countKey (w.addQueue qname c1).qList qname = 1 := by
    rw [hlist, countKey_append_single, countKey_eq_zero_of_none w.qList qname hn]
  refine ⟨?_, hcnt, ?_⟩
  · rw [hlist]
    exact qlookup_append_of_none w.qList qname (MPQueue.new c1) hn
  · rw [hidem]
    exact hcnt

/-- C9 witness: adding the queue named q twice, with a different capacity
the second time, leaves the single original capacity-3 queue. -/
theorem addQueue_idempotent_check :
    ((MicroWhirlQueues.new 1).addQueue "q" 3).addQueue "q" 5
        = (MicroWhirlQueues.new 1).addQueue "q" 3 ∧
    qlookup ((MicroWhirlQueues.new 1).addQueue "q" 3).qList "q" = some (MPQueue.new 3) ∧
    countKey ((MicroWhirlQueues.new 1).addQueue "q" 3).qList "q" = 1 ∧
    ((MicroWhirlQueues.new 1).addQueue "q" 3).addQueue "q" 5
        = (MicroWhirlQueues.new 1).addQueue "q" 3 := by
  refine ⟨(addQueue_idempotent (MicroWhirlQueues.new 1) "q" 3 5).1, ?_, ?_,
    (addQueue_idempotent ((MicroWhirlQueues.new 1).addQueue "q" 3) "q" 5 5).2.1 (by decide)⟩
  · exact ((addQueue_idempotent (MicroWhirlQueues.new 1) "q" 3 5).2.2 rfl).1
  · exact ((addQueue_idempotent (MicroWhirlQueues.new 1) "q" 3 5).2.2 rfl).2.1

/-- C10: closing a queue never unregisters its name: after `closeQueue`
(or `closeAllQueues`) the name still maps to an entry, a subsequent `put`
or `get` on it does not raise `QueueNotExists` (it raises the closed-queue
`ValueError` instead), and `queueSize` still consults the closed queue
rather than taking the unknown-name branch. -/
theorem closed_name_still_registered (w : MicroWhirlQueues) (qname : String)
    (q : MPQueue) (o : Obj) (hq : qlookup w.qList qname = some q) :
    (∃ q2, qlookup (w.closeQueue qname).qList qname = some q2 ∧
      (w.closeQueue qname).queueSize qname = q2.qsize) ∧
    (w.closeQueue qname).put qname o = Except.error PyExc.ValueErrorClosed ∧
    (w.closeQueue qname).get qname = Except.error PyExc.ValueErrorClosed ∧
    (∀ msg, (w.closeQueue qname).put qname o ≠ Except.error (PyExc.QueueNotExists msg)) ∧
    (∀ msg, (w.closeQueue qname).get qname ≠ Except.error (PyExc.QueueNotExists msg)) ∧
    (∃ q3, qlookup w.closeAllQueues.qList qname = some q3 ∧
      w.closeAllQueues.put qname o = Except.error PyExc.ValueErrorClosed ∧
      (∀ msg, w.closeAllQueues.put qname o ≠ Except.error (PyExc.QueueNotExists msg))) := by
  have h1 : w.closeQueue qname = { w with qList := qupdate w.qList qname q.close } := by
    simp [MicroWhirlQueues.closeQueue, hq]
  have hlook : qlookup (w.closeQueue qname).qList qname = some q.close := by
    rw [h1]
    exact qlookup_qupdate_self w.qList qname q.close (by simp [hq])
  have hput : (w.closeQueue qname).put qname o = Except.error PyExc.ValueErrorClosed := by
    simp [MicroWhirlQueues.put, hlook, MPQueue.put, MPQueue.close]
  have hget : (w.closeQueue qname).get qname = Except.error PyExc.ValueErrorClosed := by
    simp [MicroWhirlQueues.get, hlook, MPQueue.get, MPQueue.close]
  have hlookAll : qlookup w.closeAllQueues.qList qname = some q.close := by
    simp [MicroWhirlQueues.closeAllQueues, qlookup_map_close, hq]
  have hputAll : w.closeAllQueues.put qname o = Except.error PyExc.ValueErrorClosed := by
    simp [MicroWhirlQueues.put, hlookAll, MPQueue.put, MPQueue.close]
  refine ⟨⟨q.close, hlook, ?_⟩, hput, hget, ?_, ?_, ⟨q.close, hlookAll, hputAll, ?_⟩⟩
  · simp [MicroWhirlQueues.queueSize, hlook]
  · intro msg h
    rw [hput] at h
    exact PyExc.noConfusion (Except.error.inj h)
  · intro msg h
    rw [hget] at h
    exact PyExc.noConfusion (Except.error.inj h)
  · intro msg h
    rw [hputAll] at h
    exact PyExc.noConfusion (Except.error.inj h)

/-- C10 witness: on a concrete registry holding one queue with one item,
closing by name (or closing all) keeps the name registered and put/get
raise the closed-queue error, never `QueueNotExists`. -/
theorem closed_name_still_registered_check :
    (∃ q2, qlookup (MicroWhirlQueues.closeQueue
        { qList := [("q", { maxsize := 0, items := [Obj.data 1], closed := false })],
          qTimeout := 1 } "q").qList "q" = some q2 ∧
      (MicroWhirlQueues.closeQueue
        { qList := [("q", { maxsize := 0, items := [Obj.data 1], closed := false })],
          qTimeout := 1 } "q").queueSize "q" = q2.qsize) ∧
    (MicroWhirlQueues.closeQueue
        { qList := [("q", { maxsize := 0, items := [Obj.data 1], closed := false })],
          qTimeout := 1 } "q").put "q" (Obj.data 2)
      = Except.error PyExc.ValueErrorClosed ∧
    (MicroWhirlQueues.closeQueue
        { qList := [("q", { maxsize := 0, items := [Obj.data 1], closed := false })],
          qTimeout := 1 } "q").put "q" (Obj.data 2)
      ≠ Except.error (PyExc.QueueNotExists "Queue q not exists") := by
  have h := closed_name_still_registered
    { qList := [("q", { maxsize := 0, items := [Obj.data 1], closed := false })],
      qTimeout := 1 } "q"
    { maxsize := 0, items := [Obj.data 1], closed := false } (Obj.data 2) (by decide)
  exact ⟨h.1, h.2.1, h.2.2.2.1 "Queue q not exists"⟩

/-! ### Worker and controller helper lemmas -/

theorem checkAlive_foldl (pred : WhirlProcess → String → Nat → Bool)
    (l : List (WhirlProcess × String × Nat)) (b : Bool) :
    l.foldl
        (fun alive rec => if pred rec.1 rec.2.1 rec.2.2 then alive || rec.1.alive else alive)
        b
      = (b || l.any (fun rec => pred rec.1 rec.2.1 rec.2.2 && rec.1.alive)) := by
  induction l generalizing b with
  | nil => simp
  | cons rec rest ih =>
    cases hp : pred rec.1 rec.2.1 rec.2.2 with
    | true => simp [hp, ih, Bool.or_assoc]
    | false => simp [hp, ih]

theorem processSignals_fields_simple (s s2 : SimpleWorkerProcess)
    (h : s.processSignals = Except.ok s2) :
    s2.worker = s.worker ∧ s2.whirl = s.whirl ∧
      (s.softclose = true → s2.softclose = true) := by
  cases hqi : s.qInput with
  | none =>
    simp only [SimpleWorkerProcess.processSignals, hqi] at h
    exact Except.noConfusion h
  | some q0 =>
    cases hg : q0.get with
    | empty =>
      simp only [SimpleWorkerProcess.processSignals, hqi, hg] at h
      have h2 := Except.ok.inj h
      subst h2
      exact ⟨rfl, rfl, fun h3 => h3⟩
    | closedErr =>
      simp only [SimpleWorkerProcess.processSignals, hqi, hg] at h
      exact Except.noConfusion h
    | ok o q2 =>
      by_cases ho : o = SOFTCLOSE
      · simp only [SimpleWorkerProcess.processSignals, hqi, hg, if_pos ho] at h
        have h2 := Except.ok.inj h
        subst h2
        exact ⟨rfl, rfl, fun _ => rfl⟩
      · simp only [SimpleWorkerProcess.processSignals, hqi, hg, if_neg ho] at h
        have h2 := Except.ok.inj h
        subst h2
        exact ⟨rfl, rfl, fun h3 => h3⟩

theorem processSignals_fields_softclose (p p2 : SoftcloseProcess)
    (h : p.processSignals = Except.ok p2) :
    p.softclose = true → p2.softclose = true := by
  cases hqi : p.qInput with
  | none =>
    simp only [SoftcloseProcess.processSignals, hqi] at h
    exact Except.noConfusion h
  | some q0 =>
    cases hg : q0.get with
    | empty =>
      simp only [SoftcloseProcess.processSignals, hqi, hg] at h
      have h2 := Except.ok.inj h
      subst h2
      exact fun h3 => h3
    | closedErr =>
      simp only [SoftcloseProcess.processSignals, hqi, hg] at h
      exact Except.noConfusion h
    | ok o q2 =>
      by_cases ho : o = SOFTCLOSE
      · simp only [SoftcloseProcess.processSignals, hqi, hg, if_pos ho] at h
        have h2 := Except.ok.inj h
        subst h2
        exact fun _ => rfl
      · simp only [SoftcloseProcess.processSignals, hqi, hg, if_neg ho] at h
        have h2 := Except.ok.inj h
        subst h2
        exact fun h3 => h3

theorem run_of_softclose (s : SimpleWorkerProcess) (hsc : s.softclose = true) :
    ∀ n, SimpleWorkerProcess.run n s = Except.ok s := by
  intro n
  cases n with
  | zero => rfl
  | succ k =>
    have hstep : s.step = Except.ok none := by
      simp [SimpleWorkerProcess.step, hsc]
    simp [SimpleWorkerProcess.run, hstep]

theorem signalOne_ok_of_open (pred : WhirlProcess → String → Nat → Bool)
    (rec : WhirlProcess × String × Nat)
    (h : pred rec.1 rec.2.1 rec.2.2 = true → ∀ q, rec.1.qInput = some q → q.closed = false) :
    signalOne pred rec = Except.ok (signalOneOk pred rec) := by
  cases hp : pred rec.1 rec.2.1 rec.2.2 with
  | false => simp [signalOne, signalOneOk, hp]
  | true =>
    cases hqi : rec.1.qInput with
    | none => simp [signalOne, signalOneOk, hp, hqi]
    | some q =>
      have hcl : q.closed = false := h hp q hqi
      cases hf : q.isFull with
      | true => simp [signalOne, signalOneOk, hp, hqi, MPQueue.put, hcl, hf]
      | false => simp [signalOne, signalOneOk, hp, hqi, MPQueue.put, hcl, hf]

theorem signalAll_ok_of_open (pred : WhirlProcess → String → Nat → Bool)
    (l : List (WhirlProcess × String × Nat))
    (h : ∀ rec ∈ l, pred rec.1 rec.2.1 rec.2.2 = true →
      ∀ q, rec.1.qInput = some q → q.closed = false) :
    signalAll pred l = Except.ok (l.map (signalOneOk pred)) := by
  induction l with
  | nil => rfl
  | cons rec rest ih =>
    have h1 := signalOne_ok_of_open pred rec (h rec (by simp))
    have h2 := ih (fun r hr => h r (by simp [hr]))
    simp [signalAll, h1, h2]

/-! ### Claim theorems: workers and controller -/

/-- C7: `checkAliveByPredicate` returns true iff at least one worker
record matching the predicate is still running, and false exactly once
every matching unit has terminated, vacuously so when nothing matches. -/
theorem checkAlive_iff (m : MicroWhirl) (pred : WhirlProcess → String → Nat → Bool) :
    (m.checkAliveByPredicate pred = true ↔
      ∃ rec ∈ m.wList, pred rec.1 rec.2.1 rec.2.2 = true ∧ rec.1.alive = true) ∧
    (m.checkAliveByPredicate pred = false ↔
      ∀ rec ∈ m.wList, pred rec.1 rec.2.1 rec.2.2 = true → rec.1.alive = false) := by
  have hany : m.checkAliveByPredicate pred
      = m.wList.any (fun rec => pred rec.1 rec.2.1 rec.2.2 && rec.1.alive) := by
    simpa using checkAlive_foldl pred m.wList false
  constructor
  · rw [hany, List.any_eq_true]
    simp [Bool.and_eq_true]
  · rw [hany]
    constructor
    · intro h rec hmem hpred
      have h2 : (pred rec.1 rec.2.1 rec.2.2 && rec.1.alive) = false := by
        cases hx : (pred rec.1 rec.2.1 rec.2.2 && rec.1.alive) with
        | false => rfl
        | true =>
          have hall : m.wList.any (fun r => pred r.1 r.2.1 r.2.2 && r.1.alive) = true :=
            List.any_eq_true.mpr ⟨rec, hmem, hx⟩
          rw [h] at hall
          exact Bool.noConfusion hall
      rw [hpred] at h2
      simpa using h2
    · intro h
      cases hx : m.wList.any (fun rec => pred rec.1 rec.2.1 rec.2.2 && rec.1.alive) with
      | false => rfl
      | true =>
        rw [List.any_eq_true] at hx
        obtain ⟨rec, hmem, hcond⟩ := hx
        rw [Bool.and_eq_true] at hcond
        have := h rec hmem hcond.1
        rw [this] at hcond
        exact Bool.noConfusion hcond.2

/-- C7 witness: on a two-worker list, the tag-b predicate (whose worker is
running) reports alive, and the tag-c predicate (matching nothing) reports
not alive. -/
theorem checkAlive_iff_check :
    MicroWhirl.checkAliveByPredicate
        { wList :=
            [({ whirl := none, qInput := none, qOutput := none, alive := false }, "a", 1),
             ({ whirl := none, qInput := none, qOutput := none, alive := true }, "b", 2)],
          queues := MicroWhirlQueues.new 1, maxProcId := 2 }
        (fun _ t _ => t == "b") = true ∧
    MicroWhirl.checkAliveByPredicate
        { wList :=
            [({ whirl := none, qInput := none, qOutput := none, alive := false }, "a", 1),
             ({ whirl := none, qInput := none, qOutput := none, alive := true }, "b", 2)],
          queues := MicroWhirlQueues.new 1, maxProcId := 2 }
        (fun _ t _ => t == "c") = false := by
  constructor
  · exact (checkAlive_iff
      { wList :=
          [({ whirl := none, qInput := none, qOutput := none, alive := false }, "a", 1),
           ({ whirl := none, qInput := none, qOutput := none, alive := true }, "b", 2)],
        queues := MicroWhirlQueues.new 1, maxProcId := 2 }
      (fun _ t _ => t == "b")).1.mpr
      ⟨({ whirl := none, qInput := none, qOutput := none, alive := true }, "b", 2),
        by simp, by decide, rfl⟩
  · exact (checkAlive_iff
      { wList :=
          [({ whirl := none, qInput := none, qOutput := none, alive := false }, "a", 1),
           ({ whirl := none, qInput := none, qOutput := none, alive := true }, "b", 2)],
        queues := MicroWhirlQueues.new 1, maxProcId := 2 }
      (fun _ t _ => t == "c")).2.mpr (by decide)

/-- C4: for every predicate and worker list whose matching signal queues
are open, `closeWorkersByPredicate` succeeds (no error propagates) and
performs, per matching unit with a signal queue, exactly one non-blocking
send of the soft-close sentinel: if the queue is full the signal is
silently dropped and the record is left unchanged (no retry), matching
units without a signal queue are skipped, and non-matching units are
untouched. -/
theorem closeWorkers_contract (m : MicroWhirl) (pred : WhirlProcess → String → Nat → Bool)
    (hopen : m.wList.all (fun rec =>
      !(pred rec.1 rec.2.1 rec.2.2) ||
        (match rec.1.qInput with
         | none => true
         | some q => !q.closed)) = true) :
    m.closeWorkersByPredicate pred
      = Except.ok { m with wList := m.wList.map (signalOneOk pred) } ∧
    (∀ rec, pred rec.1 rec.2.1 rec.2.2 = false → signalOneOk pred rec = rec) ∧
    (∀ rec, pred rec.1 rec.2.1 rec.2.2 = true → rec.1.qInput = none →
      signalOneOk pred rec = rec) ∧
    (∀ rec q, pred rec.1 rec.2.1 rec.2.2 = true → rec.1.qInput = some q →
      q.closed = false → q.isFull = true → signalOneOk pred rec = rec) ∧
    (∀ rec q, pred rec.1 rec.2.1 rec.2.2 = true → rec.1.qInput = some q →
      q.closed = false → q.isFull = false →
      signalOneOk pred rec
        = ({ rec.1 with qInput := some { q with items := q.items ++ [SOFTCLOSE] } },
           rec.2.1, rec.2.2)) := by
  have hopen2 : ∀ rec ∈ m.wList, pred rec.1 rec.2.1 rec.2.2 = true →
      ∀ q, rec.1.qInput = some q → q.closed = false := by
    intro rec hmem hp q hq
    have h := List.all_eq_true.mp hopen rec hmem
    rw [hp, hq] at h
    simpa using h
  refine ⟨?_, ?_, ?_, ?_, ?_⟩
  · simp [MicroWhirl.closeWorkersByPredicate, signalAll_ok_of_open pred m.wList hopen2]
  · intro rec hp
    simp [signalOneOk, hp]
  · intro rec hp hqi
    simp [signalOneOk, hp, hqi]
  · intro rec q hp hqi hcl hf
    simp [signalOneOk, hp, hqi, MPQueue.put, hcl, hf]
  · intro rec q hp hqi hcl hf
    simp [signalOneOk, hp, hqi, MPQueue.put, hcl, hf]

/-- C4 witness: a four-worker list (matching with room, matching full,
matching without signal queue, not matching) under the tag-g predicate:
no error, one sentinel appended to the open non-full queue, everything
else unchanged. -/
theorem closeWorkers_contract_check :
    MicroWhirl.closeWorkersByPredicate
        { wList :=
            [({ whirl := none,
                qInput := some { maxsize := 0, items := [], closed := false },
                qOutput := none, alive := true }, "g", 1),
             ({ whirl := none,
                qInput := some { maxsize := 1, items := [Obj.data 9], closed := false },
                qOutput := none, alive := true }, "g", 2),
             ({ whirl := none, qInput := none, qOutput := none, alive := true }, "g", 3),
             ({ whirl := none,
                qInput := some { maxsize := 0, items := [], closed := false },
                qOutput := none, alive := true }, "h", 4)],
          queues := MicroWhirlQueues.new 1, maxProcId := 4 }
        (fun _ t _ => t == "g")
      = Except.ok
        { wList :=
            [({ whirl := none,
                qInput := some { maxsize := 0, items := [SOFTCLOSE], closed := false },
                qOutput := none, alive := true }, "g", 1),
             ({ whirl := none,
                qInput := some { maxsize := 1, items := [Obj.data 9], closed := false },
                qOutput := none, alive := true }, "g", 2),
             ({ whirl := none, qInput := none, qOutput := none, alive := true }, "g", 3),
             ({ whirl := none,
                qInput := some { maxsize := 0, items := [], closed := false },
                qOutput := none, alive := true }, "h", 4)],
          queues := MicroWhirlQueues.new 1, maxProcId := 4 } :=
  (closeWorkers_contract
    { wList :=
        [({ whirl := none,
            qInput := some { maxsize := 0, items := [], closed := false },
            qOutput := none, alive := true }, "g", 1),
         ({ whirl := none,
            qInput := some { maxsize := 1, items := [Obj.data 9], closed := false },
            qOutput := none, alive := true }, "g", 2),
         ({ whirl := none, qInput := none, qOutput := none, alive := true }, "g", 3),
         ({ whirl := none,
            qInput := some { maxsize := 0, items := [], closed := false },
            qOutput := none, alive := true }, "h", 4)],
      queues := MicroWhirlQueues.new 1, maxProcId := 4 }
    (fun _ t _ => t == "g") rfl).1

/-- C5: one poll of the private signal queue leaves the queue's tail and
sets the soft-close flag exactly when the polled value is the sentinel
(an empty poll changes nothing); the flag is monotone: neither
`processSignals` (in either worker class), nor a run-loop step, nor
`cleanup` ever clears it once set. -/
theorem processSignals_contract (s : SimpleWorkerProcess) (p : SoftcloseProcess)
    (q : MPQueue) :
    (s.qInput = some q → q.closed = false → q.items = [] →
      s.processSignals = Except.ok s) ∧
    (∀ o rest, s.qInput = some q → q.closed = false → q.items = o :: rest →
      s.processSignals
        = Except.ok { s with qInput := some { q with items := rest },
                             softclose := s.softclose || decide (o = SOFTCLOSE) }) ∧
    (p.qInput = some q → q.closed = false → q.items = [] →
      p.processSignals = Except.ok p) ∧
    (∀ o rest, p.qInput = some q → q.closed = false → q.items = o :: rest →
      p.processSignals
        = Except.ok { p with qInput := some { q with items := rest },
                             softclose := p.softclose || decide (o = SOFTCLOSE) }) ∧
    (∀ s2, s.processSignals = Except.ok s2 → s.softclose = true → s2.softclose = true) ∧
    (∀ p2, p.processSignals = Except.ok p2 → p.softclose = true → p2.softclose = true) ∧
    (s.softclose = true → s.step = Except.ok none ∧
      ∀ n, SimpleWorkerProcess.run n s = Except.ok s) ∧
    (∀ s1, s.step = Except.ok (some s1) → s.softclose = false) ∧
    s.cleanup.softclose = s.softclose := by
  refine ⟨?_, ?_, ?_, ?_, ?_, ?_, ?_, ?_, rfl⟩
  · intro hqi hcl hempty
    simp [SimpleWorkerProcess.processSignals, hqi, MPQueue.get, hcl, hempty]
  · intro o rest hqi hcl hitems
    by_cases ho : o = SOFTCLOSE
    · subst ho
      simp [SimpleWorkerProcess.processSignals, hqi, MPQueue.get, hcl, hitems]
    · simp [SimpleWorkerProcess.processSignals, hqi, MPQueue.get, hcl, hitems, ho]
  · intro hqi hcl hempty
    simp [SoftcloseProcess.processSignals, hqi, MPQueue.get, hcl, hempty]
  · intro o rest hqi hcl hitems
    by_cases ho : o = SOFTCLOSE
    · subst ho
      simp [SoftcloseProcess.processSignals, hqi, MPQueue.get, hcl, hitems]
    · simp [SoftcloseProcess.processSignals, hqi, MPQueue.get, hcl, hitems, ho]
  · intro s2 hok hsc
    exact (processSignals_fields_simple s s2 hok).2.2 hsc
  · intro p2 hok hsc
    exact processSignals_fields_softclose p p2 hok hsc
  · intro hsc
    refine ⟨?_, run_of_softclose s hsc⟩
    simp [SimpleWorkerProcess.step, hsc]
  · intro s1 hstep
    cases hsc : s.softclose with
    | false => rfl
    | true =>
      have : s.step = Except.ok none := by
        simp [SimpleWorkerProcess.step, hsc]
      rw [this] at hstep
      have h2 := Except.ok.inj hstep
      exact Option.noConfusion h2

/-- C5 witness: polling a sentinel sets the flag; polling application data
does not; with the flag set, the step exits and never clears it. -/
theorem processSignals_contract_check :
    SimpleWorkerProcess.processSignals
        { whirl := none,
          qInput := some { maxsize := 0, items := [SOFTCLOSE], closed := false },
          qOutput := none, alive := false,
          worker := fun w => w, softclose := false }
      = Except.ok
        { whirl := none,
          qInput := some { maxsize := 0, items := [], closed := false },
          qOutput := none, alive := false,
          worker := fun w => w, softclose := true } ∧
    SoftcloseProcess.processSignals
        { whirl := none,
          qInput := some { maxsize := 0, items := [Obj.data 3], closed := false },
          qOutput := none, alive := false, softclose := false }
      = Except.ok
        { whirl := none,
          qInput := some { maxsize := 0, items := [], closed := false },
          qOutput := none, alive := false, softclose := false } ∧
    SimpleWorkerProcess.step
        { whirl := none,
          qInput := some { maxsize := 0, items := [], closed := false },
          qOutput := none, alive := false,
          worker := fun w => w, softclose := true }
      = Except.ok none ∧
    SimpleWorkerProcess.run 3
        { whirl := none,
          qInput := some { maxsize := 0, items := [], closed := false },
          qOutput := none, alive := false,
          worker := fun w => w, softclose := true }
      = Except.ok
        { whirl := none,
          qInput := some { maxsize := 0, items := [], closed := false },
          qOutput := none, alive := false,
          worker := fun w => w, softclose := true } := by
  refine ⟨?_, ?_, ?_, ?_⟩
  · exact (processSignals_contract
      { whirl := none,
        qInput := some { maxsize := 0, items := [SOFTCLOSE], closed := false },
        qOutput := none, alive := false, worker := fun w => w, softclose := false }
      (SoftcloseProcess.new true true)
      { maxsize := 0, items := [SOFTCLOSE], closed := false }).2.1
      SOFTCLOSE [] rfl rfl rfl
  · exact (processSignals_contract
      (SimpleWorkerProcess.new (fun w => w))
      { whirl := none,
        qInput := some { maxsize := 0, items := [Obj.data 3], closed := false },
        qOutput := none, alive := false, softclose := false }
      { maxsize := 0, items := [Obj.data 3], closed := false }).2.2.2.1
      (Obj.data 3) [] rfl rfl rfl
  · exact ((processSignals_contract
      { whirl := none,
        qInput := some { maxsize := 0, items := [], closed := false },
        qOutput := none, alive := false, worker := fun w => w, softclose := true }
      (SoftcloseProcess.new true true)
      (MPQueue.new 0)).2.2.2.2.2.2.1 rfl).1
  · exact ((processSignals_contract
      { whirl := none,
        qInput := some { maxsize := 0, items := [], closed := false },
        qOutput := none, alive := false, worker := fun w => w, softclose := true }
      (SoftcloseProcess.new true true)
      (MPQueue.new 0)).2.2.2.2.2.2.1 rfl).2 3

/-- C6: the stateless functional worker is constructed with a signal queue
and no result queue, its flag cleared and registry unbound; its run loop
iterates while the soft-close flag is unset, and an iteration first polls
signals and then invokes the user-supplied function exactly once with the
shared registry handle. -/
theorem simpleWorker_loop_contract (f : MicroWhirlQueues → MicroWhirlQueues)
    (s s1 : SimpleWorkerProcess) (w : MicroWhirlQueues) :
    (SimpleWorkerProcess.new f).qInput = some (MPQueue.new 0) ∧
    (SimpleWorkerProcess.new f).qOutput = none ∧
    (SimpleWorkerProcess.new f).softclose = false ∧
    (SimpleWorkerProcess.new f).worker = f ∧
    (SimpleWorkerProcess.new f).whirl = none ∧
    (s.softclose = true → s.step = Except.ok none) ∧
    (∀ s2, s.processSignals = Except.ok s2 → s2.worker = s.worker ∧ s2.whirl = s.whirl) ∧
    (s.softclose = false → s.processSignals = Except.ok s1 → s1.whirl = some w →
      s.step = Except.ok (some { s1 with whirl := some (s1.worker w) })) ∧
    (∀ n, s.step = Except.ok (some s1) →
      SimpleWorkerProcess.run (n + 1) s = SimpleWorkerProcess.run n s1) ∧
    (s.step = Except.ok none → ∀ n, SimpleWorkerProcess.run (n + 1) s = Except.ok s) := by
  refine ⟨rfl, rfl, rfl, rfl, rfl, ?_, ?_, ?_, ?_, ?_⟩
  · intro hsc
    simp [SimpleWorkerProcess.step, hsc]
  · intro s2 hok
    exact ⟨(processSignals_fields_simple s s2 hok).1,
           (processSignals_fields_simple s s2 hok).2.1⟩
  · intro hsc hps hw
    simp [SimpleWorkerProcess.step, hsc, hps, hw]
  · intro n hstep
    simp [SimpleWorkerProcess.run, hstep]
  · intro hstep n
    simp [SimpleWorkerProcess.run, hstep]

/-- C6 witness: a concrete bound worker whose function adds a queue: the
construction facts, and one step that polls the empty signal queue and
then applies the function once to the bound registry. -/
theorem simpleWorker_loop_contract_check :
    (SimpleWorkerProcess.new (fun w => w.addQueue "made" 0)).qInput
        = some (MPQueue.new 0) ∧
    (SimpleWorkerProcess.new (fun w => w.addQueue "made" 0)).qOutput = none ∧
    SimpleWorkerProcess.step
        { whirl := some (MicroWhirlQueues.new 1),
          qInput := some { maxsize := 0, items := [], closed := false },
          qOutput := none, alive := false,
          worker := fun w => w.addQueue "made" 0, softclose := false }
      = Except.ok (some
        { whirl := some ((MicroWhirlQueues.new 1).addQueue "made" 0),
          qInput := some { maxsize := 0, items := [], closed := false },
          qOutput := none, alive := false,
          worker := fun w => w.addQueue "made" 0, softclose := false }) ∧
    SimpleWorkerProcess.run 1
        { whirl := some (MicroWhirlQueues.new 1),
          qInput := some { maxsize := 0, items := [], closed := false },
          qOutput := none, alive := false,
          worker := fun w => w.addQueue "made" 0, softclose := true }
      = Except.ok
        { whirl := some (MicroWhirlQueues.new 1),
          qInput := some { maxsize := 0, items := [], closed := false },
          qOutput := none, alive := false,
          worker := fun w => w.addQueue "made" 0, softclose := true } := by
  refine ⟨?_, ?_, ?_, ?_⟩
  · exact (simpleWorker_loop_contract (fun w => w.addQueue "made" 0)
      (SimpleWorkerProcess.new (fun w => w.addQueue "made" 0))
      (SimpleWorkerProcess.new (fun w => w.addQueue "made" 0))
      (MicroWhirlQueues.new 1)).1
  · exact (simpleWorker_loop_contract (fun w => w.addQueue "made" 0)
      (SimpleWorkerProcess.new (fun w => w.addQueue "made" 0))
      (SimpleWorkerProcess.new (fun w => w.addQueue "made" 0))
      (MicroWhirlQueues.new 1)).2.1
  · exact (simpleWorker_loop_contract (fun w => w.addQueue "made" 0)
      { whirl := some (MicroWhirlQueues.new 1),
        qInput := some { maxsize := 0, items := [], closed := false },
        qOutput := none, alive := false,
        worker := fun w => w.addQueue "made" 0, softclose := false }
      { whirl := some (MicroWhirlQueues.new 1),
        qInput := some { maxsize := 0, items := [], closed := false },
        qOutput := none, alive := false,
        worker := fun w => w.addQueue "made" 0, softclose := false }
      (MicroWhirlQueues.new 1)).2.2.2.2.2.2.2.1 rfl rfl rfl
  · exact ((simpleWorker_loop_contract (fun w => w.addQueue "made" 0)
      { whirl := some (MicroWhirlQueues.new 1),
        qInput := some { maxsize := 0, items := [], closed := false },
        qOutput := none, alive := false,
        worker := fun w => w.addQueue "made" 0, softclose := true }
      { whirl := some (MicroWhirlQueues.new 1),
        qInput := some { maxsize := 0, items := [], closed := false },
        qOutput := none, alive := false,
        worker := fun w => w.addQueue "made" 0, softclose := true }
      (MicroWhirlQueues.new 1)).2.2.2.2.2.2.2.2.2 (by simp [SimpleWorkerProcess.step])) 0

theorem addWorkers_unfold (l : List (WhirlProcess × String)) (m : MicroWhirl) :
    (m.addWorkers l).1.queues = m.queues ∧
    (m.addWorkers l).1.maxProcId = m.maxProcId + l.length ∧
    (m.addWorkers l).2 = List.range' (m.maxProcId + 1) l.length ∧
    (m.addWorkers l).1.wList
      = m.wList ++ (l.zip (List.range' (m.maxProcId + 1) l.length)).map
          (fun x => ({ x.1.1 with whirl := some m.queues }, x.1.2, x.2)) := by
  induction l generalizing m with
  | nil => simp [MicroWhirl.addWorkers]
  | cons wt rest ih =>
    obtain ⟨wproc, tag⟩ := wt
    have hm1 : (m.addWorker wproc tag).1
        = { wList := m.wList ++ [({ wproc with whirl := some m.queues }, tag, m.maxProcId + 1)],
            queues := m.queues, maxProcId := m.maxProcId + 1 } := rfl
    have hid : (m.addWorker wproc tag).2 = m.maxProcId + 1 := rfl
    obtain ⟨ihq, ihm, ihids, ihw⟩ := ih (m.addWorker wproc tag).1
    have hunfold : m.addWorkers ((wproc, tag) :: rest)
        = (((m.addWorker wproc tag).1.addWorkers rest).1,
           (m.addWorker wproc tag).2 :: ((m.addWorker wproc tag).1.addWorkers rest).2) := rfl
    rw [hunfold]
    have hms : (m.addWorker wproc tag).1.maxProcId = m.maxProcId + 1 := by rw [hm1]
    have hqs : (m.addWorker wproc tag).1.queues = m.queues := by rw [hm1]
    refine ⟨?_, ?_, ?_, ?_⟩
    · rw [ihq, hqs]
    · rw [ihm, hms, List.length_cons]
      omega
    · rw [List.length_cons, List.range'_succ]
      simp only [hid, ihids, hms]
    · rw [ihw, hm1, List.length_cons, List.range'_succ, List.zip_cons_cons, List.map_cons]
      simp only []
      rw [List.append_assoc]
      have h2 : m.maxProcId + 1 + 1 = m.maxProcId + 2 := rfl
      norm_num

/-- C8: from a fresh controller, the ids handed out by successive
`addWorker` calls are exactly 1, 2, ..., n in call order — strictly
increasing from 1, never reused, independent of the tags; the records are
appended in insertion order carrying their tags; every registered worker
has the controller's shared registry handle bound in; and a single
`addWorker` binds the handle, appends the record and returns the new id. -/
theorem addWorker_contract (qt : Nat) (l : List (WhirlProcess × String))
    (m0 : MicroWhirl) (w : WhirlProcess) (tag : String) :
    ((MicroWhirl.new qt).addWorkers l).2 = List.range' 1 l.length ∧
    ((MicroWhirl.new qt).addWorkers l).2.Pairwise (· < ·) ∧
    ((MicroWhirl.new qt).addWorkers l).1.wList.map (fun rec => rec.2.2)
      = List.range' 1 l.length ∧
    ((MicroWhirl.new qt).addWorkers l).1.wList.map (fun rec => rec.2.1)
      = l.map Prod.snd ∧
    (∀ rec ∈ ((MicroWhirl.new qt).addWorkers l).1.wList,
      rec.1.whirl = some (MicroWhirlQueues.new qt)) ∧
    (m0.addWorker w tag).2 = m0.maxProcId + 1 ∧
    (m0.addWorker w tag).1.wList
      = m0.wList ++ [({ w with whirl := some m0.queues }, tag, m0.maxProcId + 1)] ∧
    (m0.addWorker w tag).1.maxProcId = m0.maxProcId + 1 := by
  obtain ⟨hq, hm, hids, hw⟩ := addWorkers_unfold l (MicroWhirl.new qt)
  have hlen : (List.range' 1 l.length).length = l.length := List.length_range' 1 1 l.length
  have hzip : ∀ P : List Nat,
      P.length = l.length →
      (l.zip P).map (fun x =>
          (({ x.1.1 with whirl := some (MicroWhirl.new qt).queues } : WhirlProcess),
           x.1.2, x.2)) = (l.zip P).map (fun x =>
          (({ x.1.1 with whirl := some (MicroWhirlQueues.new qt) } : WhirlProcess),
           x.1.2, x.2)) := fun P _ => rfl
  refine ⟨hids, ?_, ?_, ?_, ?_, rfl, rfl, rfl⟩
  · rw [hids]
    exact List.pairwise_lt_range' 1 l.length
  · rw [hw]
    simp only [MicroWhirl.new, List.nil_append, List.map_map]
    have : ((fun rec => rec.2.2) ∘ fun x =>
        (({ x.1.1 with whirl := some (MicroWhirlQueues.new qt) } : WhirlProcess),
         x.1.2, x.2))
        = fun x : (WhirlProcess × String) × Nat => x.2 := rfl
    rw [this]
    have h2 : (fun x : (WhirlProcess × String) × Nat => x.2) = Prod.snd := rfl
    rw [h2, List.map_snd_zip]
    rw [List.length_range' 1 1 l.length]
  · rw [hw]
    simp only [MicroWhirl.new, List.nil_append, List.map_map]
    have : ((fun rec => rec.2.1) ∘ fun x =>
        (({ x.1.1 with whirl := some (MicroWhirlQueues.new qt) } : WhirlProcess),
         x.1.2, x.2))
        = fun x : (WhirlProcess × String) × Nat => x.1.2 := rfl
    rw [this]
    have h2 : (fun x : (WhirlProcess × String) × Nat => x.1.2)
        = Prod.snd ∘ Prod.fst := rfl
    rw [h2, ← List.map_map, List.map_fst_zip]
    rw [List.length_range' 1 1 l.length]
  · intro rec hmem
    rw [hw] at hmem
    simp only [MicroWhirl.new, List.nil_append, List.mem_map] at hmem
    obtain ⟨x, hx, hrec⟩ := hmem
    rw [← hrec]

/-- C8 witness: two workers registered under the same tag get ids 1 and 2
in order, both bound to the shared registry. -/
theorem addWorker_contract_check :
    ((MicroWhirl.new 1).addWorkers
        [({ whirl := none, qInput := none, qOutput := none, alive := false }, "g"),
         ({ whirl := none, qInput := none, qOutput := none, alive := false }, "g")]).2
      = [1, 2] ∧
    ((MicroWhirl.new 1).addWorkers
        [({ whirl := none, qInput := none, qOutput := none, alive := false }, "g"),
         ({ whirl := none, qInput := none, qOutput := none, alive := false }, "g")]).1.wList.map
        (fun rec => rec.2.1) = ["g", "g"] ∧
    (∀ rec ∈ ((MicroWhirl.new 1).addWorkers
        [({ whirl := none, qInput := none, qOutput := none, alive := false }, "g"),
         ({ whirl := none, qInput := none, qOutput := none, alive := false }, "g")]).1.wList,
      rec.1.whirl = some (MicroWhirlQueues.new 1)) ∧
    (MicroWhirl.addWorker (MicroWhirl.new 1)
        { whirl := none, qInput := none, qOutput := none, alive := false } "solo").2 = 1 := by
  refine ⟨?_, ?_, ?_, ?_⟩
  · exact (addWorker_contract 1
      [({ whirl := none, qInput := none, qOutput := none, alive := false }, "g"),
       ({ whirl := none, qInput := none, qOutput := none, alive := false }, "g")]
      (MicroWhirl.new 1)
      { whirl := none, qInput := none, qOutput := none, alive := false } "solo").1
  · exact (addWorker_contract 1
      [({ whirl := none, qInput := none, qOutput := none, alive := false }, "g"),
       ({ whirl := none, qInput := none, qOutput := none, alive := false }, "g")]
      (MicroWhirl.new 1)
      { whirl := none, qInput := none, qOutput := none, alive := false } "solo").2.2.2.1
  · exact (addWorker_contract 1
      [({ whirl := none, qInput := none, qOutput := none, alive := false }, "g"),
       ({ whirl := none, qInput := none, qOutput := none, alive := false }, "g")]
      (MicroWhirl.new 1)
      { whirl := none, qInput := none, qOutput := none, alive := false } "solo").2.2.2.2.1
  · exact (addWorker_contract 1
      [({ whirl := none, qInput := none, qOutput := none, alive := false }, "g"),
       ({ whirl := none, qInput := none, qOutput := none, alive := false }, "g")]
      (MicroWhirl.new 1)
      { whirl := none, qInput := none, qOutput := none, alive := false } "solo").2.2.2.2.2.1

end Microwhirl
